import Mathlib

/-!
Shallow embedding of `textacy/spacy_utils.py`.

A spaCy document is modelled as a list of annotated tokens together with the
two completion flags `is_tagged` and `is_parsed`.  Each token records the
attributes the module reads: coarse part of speech (`pos`), fine tag string
(`tag`), dependency label (`dep`, the string form of spaCy's `dep`/`dep_`),
lemma and lowercase forms (spaCy compares the integer ids `lemma`/`lower`,
which stand for the corresponding strings), surface text, entity type and the
index of the syntactic head.  A token is referred to by its index in the
document; `children`, `lefts` and `rights` are derived from the head indices
exactly as spaCy derives them (children in document order, lefts strictly
before the token, rights strictly after).  Python exceptions become an
explicit error type: `ValueError` (the spec's ValidationError for a missing
annotation) and `TypeError`.
-/

inductive Pos where
  | NOUN
  | ADJ
  | PROPN
  | PRON
  | VERB
  | X
deriving DecidableEq, Repr, Inhabited

inductive PyErr where
  | valueError : String → PyErr
  | typeError : String → PyErr
deriving DecidableEq, Repr

structure Tok where
  pos : Pos := Pos.X
  tag : String := ""
  dep : String := ""
  lemma_ : String := ""
  lower : String := ""
  text : String := ""
  entType : String := ""
  head : Nat := 0
deriving DecidableEq, Repr, Inhabited

structure Doc where
  toks : List Tok
  is_tagged : Bool := true
  is_parsed : Bool := true
deriving DecidableEq, Repr

/-- Attributes of the token at index `i` of document `d`. -/
def att (d : Doc) (i : Nat) : Tok := d.toks.getD i default

/-- spaCy `Token.children`: the tokens whose head is `i`, in document order. -/
def children (d : Doc) (i : Nat) : List Nat :=
  (List.range d.toks.length).filter (fun j => (att d j).head == i && j != i)

/-- spaCy `Token.lefts`: the leftward children of `i`, in document order. -/
def lefts (d : Doc) (i : Nat) : List Nat :=
  (List.range d.toks.length).filter (fun j => (att d j).head == i && decide (j < i))

/-- spaCy `Token.rights`: the rightward children of `i`, in document order. -/
def rights (d : Doc) (i : Nat) : List Nat :=
  (List.range d.toks.length).filter (fun j => (att d j).head == i && decide (i < j))

/-- Token indices of the span `[s0, s1)`, in document order. -/
def spanIdxs (s0 s1 : Nat) : List Nat := List.range' s0 (s1 - s0)

/-- `is_plural_noun` from `spacy_utils.py`: raises `ValueError` on an untagged
document, otherwise true iff the token is a `NOUN` whose lemma differs from
its lowercase form. -/
def is_plural_noun (d : Doc) (i : Nat) : Except PyErr Bool :=
  if d.is_tagged = false then Except.error (PyErr.valueError "token is not POS-tagged")
  else Except.ok
    (if (att d i).pos = Pos.NOUN ∧ (att d i).lemma_ ≠ (att d i).lower then true else false)

/-- `is_negated_verb` from `spacy_utils.py`: raises `ValueError` on an
unparsed document, otherwise true iff the token is a `VERB` with a child
whose dependency label is `"neg"`. -/
def is_negated_verb (d : Doc) (i : Nat) : Except PyErr Bool :=
  if d.is_parsed = false then Except.error (PyErr.valueError "token is not parsed")
  else if (att d i).pos = Pos.VERB ∧ (children d i).any (fun c => (att d c).dep == "neg")
  then Except.ok true
  else Except.ok false

/-- Modelled from the spec: `textacy.text_utils.is_acronym` is imported by
`spacy_utils.py` but its source is not part of this repository; the spec
describes it as the heuristic "all-uppercase short token". -/
def is_acronym (s : String) : Bool :=
  decide (2 ≤ s.length) && decide (s.length ≤ 10) && s.data.all (fun c => c.isUpper)

/-- `preserve_case` from `spacy_utils.py`: raises `ValueError` on an untagged
document, otherwise true iff the token is a proper noun or an acronym. -/
def preserve_case (d : Doc) (i : Nat) : Except PyErr Bool :=
  if d.is_tagged = false then Except.error (PyErr.valueError "token is not POS-tagged")
  else Except.ok (decide ((att d i).pos = Pos.PROPN) || is_acronym (att d i).text)

/-- The possible inputs of `normalized_str`: a spaCy `Token`, a spaCy `Span`
(by its document offsets), or an object of any other type (identified by its
type name, used in the `TypeError` message). -/
inductive SpacyObj where
  | tok : Nat → SpacyObj
  | span : Nat → Nat → SpacyObj
  | other : String → SpacyObj
deriving DecidableEq, Repr

/-- `normalized_str` from `spacy_utils.py`: surface text for tokens that
preserve case, lemma otherwise; for a span, the per-token results joined with
single spaces (the first failing token aborts the join, as the Python
generator does); `TypeError` for any other input. -/
def normalized_str (d : Doc) : SpacyObj → Except PyErr String
  | SpacyObj.tok i => do
      let pc ← preserve_case d i
      pure (if pc then (att d i).text else (att d i).lemma_)
  | SpacyObj.span s0 s1 => do
      let parts ← (spanIdxs s0 s1).mapM (fun j => do
        let pc ← preserve_case d j
        pure (if pc then (att d j).text else (att d j).lemma_))
      pure (String.intercalate " " parts)
  | SpacyObj.other t =>
      Except.error (PyErr.typeError ("Input must be a spacy Token or Span, not " ++ t ++ "."))

/-- A spaCy `Span` identified by its document offsets `[start, stop)`, as
consumed by `merge_spans`. -/
structure SpanI where
  start : Nat
  stop : Nat
deriving DecidableEq, Repr

/-- Surface text of the tokens in `[s0, s1)`, joined with single spaces
(modelling spaCy `Span.text` under single-space whitespace). -/
def spanText (d : Doc) (s0 s1 : Nat) : String :=
  String.intercalate " " ((spanIdxs s0 s1).map (fun j => (att d j).text))

/-- spaCy `Span.root`: the first token of the span whose head lies outside
the span (the span's syntactic head); the first token if there is none. -/
def spanRootIdx (d : Doc) (s0 s1 : Nat) : Nat :=
  match (spanIdxs s0 s1).find? (fun j =>
      decide ((att d j).head < s0) || decide (s1 ≤ (att d j).head)) with
  | some j => j
  | none => s0

/-- Modelled from the spec: spaCy `Span.merge` is external-library code, not
part of this repository.  The spec describes it as collapsing the span
in place to one token carrying the given tag, text and entity type, and as
failing with `IndexError` on a stale index (one that no longer lies inside
the document, e.g. after a prior merge shifted positions). -/
def spanMergeRaw (d : Doc) (s0 s1 : Nat) (tg tx et : String) : Except String Doc :=
  if s1 ≤ d.toks.length ∧ s0 < s1 then
    let merged : Tok :=
      { att d (spanRootIdx d s0 s1) with tag := tg, text := tx, entType := et }
    Except.ok { d with toks := d.toks.take s0 ++ [merged] ++ d.toks.drop s1 }
  else Except.error "index out of range"

/-- The call `span.merge(span.root.tag_, span.text, span.root.ent_type_)`
made by `merge_spans` for one span. -/
def mergeCall (d : Doc) (sp : SpanI) : Except String Doc :=
  spanMergeRaw d sp.start sp.stop
    (att d (spanRootIdx d sp.start sp.stop)).tag
    (spanText d sp.start sp.stop)
    (att d (spanRootIdx d sp.start sp.stop)).entType

/-- `merge_spans` from `spacy_utils.py`: merge each span in place; a failed
merge is logged (`logger.error`) and skipped.  Returns the final document and
the log of error messages, in order. -/
def merge_spans (d : Doc) : List SpanI → Doc × List String
  | [] => (d, [])
  | sp :: rest =>
      match mergeCall d sp with
      | Except.ok d2 => merge_spans d2 rest
      | Except.error e =>
          let r := merge_spans d rest
          (r.1, e :: r.2)

/-- `get_main_verbs_of_sent` from `spacy_utils.py`: one `{text, token}` entry
(here a `(text, head index)` pair) per sentence token whose dependency is
`nsubj` or `nsubjpass` and whose head is a `VERB`. -/
def get_main_verbs_of_sent (d : Doc) (s0 s1 : Nat) : List (String × Nat) :=
  ((spanIdxs s0 s1).filter (fun t =>
      ((att d t).dep == "nsubj" || (att d t).dep == "nsubjpass")
        && decide ((att d (att d t).head).pos = Pos.VERB))).map
    (fun t => ((att d (att d t).head).text, (att d t).head))

/-- `_get_conjuncts` from `spacy_utils.py`: the right dependents of `i` whose
dependency label is `"conj"`. -/
def get_conjuncts (d : Doc) (i : Nat) : List Nat :=
  (rights d i).filter (fun j => (att d j).dep == "conj")

/-- Termination measure for `conjExpand`: every conjunct of `j` has an index
strictly greater than `j`, so weighting queue entry `j` by `(N+1)^(N-j)`
strictly decreases when `j` is replaced by its conjuncts. -/
def conjMeasure (N : Nat) (Q : List Nat) : Nat :=
  (Q.map (fun j => (N + 1) ^ (N - j))).sum

/-- The self-extending third line of `get_subjects_of_verb`:
`subjs.extend(tok for subj in subjs for tok in _get_conjuncts(subj))` hands
`list.extend` a generator over the very list being extended, so CPython
appends each conjunct one at a time and the list iterator then reaches the
appended conjuncts too.  `conjExpand d Q` is the list of elements appended
while the unprocessed part of the list is `Q`. -/
def conjExpand (d : Doc) (Q : List Nat) : List Nat :=
  match Q with
  | [] => []
  | j :: Q2 => get_conjuncts d j ++ conjExpand d (Q2 ++ get_conjuncts d j)
termination_by conjMeasure d.toks.length Q
decreasing_by
  have hmem : ∀ k ∈ get_conjuncts d j, j < k ∧ k < d.toks.length := by
    intro k hk
    have hk2 : k ∈ rights d j := List.mem_of_mem_filter hk
    simp only [rights, List.mem_filter, List.mem_range, Bool.and_eq_true, beq_iff_eq,
      decide_eq_true_eq] at hk2
    exact ⟨hk2.2.2, hk2.1⟩
  have hlen : (get_conjuncts d j).length ≤ d.toks.length := by
    calc (get_conjuncts d j).length ≤ (rights d j).length := List.length_filter_le _ _
      _ ≤ (List.range d.toks.length).length := List.length_filter_le _ _
      _ = d.toks.length := List.length_range _
  have hkey : conjMeasure d.toks.length (get_conjuncts d j)
      < (d.toks.length + 1) ^ (d.toks.length - j) := by
    rcases Nat.lt_or_ge j d.toks.length with hj | hj
    · have hb : ∀ x ∈ (get_conjuncts d j).map (fun k => (d.toks.length + 1) ^ (d.toks.length - k)),
          x ≤ (d.toks.length + 1) ^ (d.toks.length - j - 1) := by
        intro x hx
        obtain ⟨k, hk, rfl⟩ := List.mem_map.mp hx
        exact Nat.pow_le_pow_right (Nat.succ_le_succ (Nat.zero_le _))
          (by have := hmem k hk; omega)
      have hsum := List.sum_le_card_nsmul _ _ hb
      have hlm : ((get_conjuncts d j).map
          (fun k => (d.toks.length + 1) ^ (d.toks.length - k))).length ≤ d.toks.length := by
        simpa using hlen
      have h1 : conjMeasure d.toks.length (get_conjuncts d j)
          ≤ d.toks.length * (d.toks.length + 1) ^ (d.toks.length - j - 1) := by
        simp only [conjMeasure, smul_eq_mul] at hsum ⊢
        exact le_trans hsum (Nat.mul_le_mul_right _ hlm)
      have h2 : (d.toks.length + 1) ^ (d.toks.length - j)
          = (d.toks.length + 1) ^ (d.toks.length - j - 1) * (d.toks.length + 1) := by
        rw [← pow_succ]
        congr 1
        omega
      have h3 : 0 < (d.toks.length + 1) ^ (d.toks.length - j - 1) :=
        Nat.pos_pow_of_pos _ (Nat.succ_pos _)
      calc conjMeasure d.toks.length (get_conjuncts d j)
          ≤ d.toks.length * (d.toks.length + 1) ^ (d.toks.length - j - 1) := h1
        _ < (d.toks.length + 1) * (d.toks.length + 1) ^ (d.toks.length - j - 1) :=
            Nat.mul_lt_mul_of_lt_of_le (Nat.lt_succ_self _) (le_refl _) h3
        _ = (d.toks.length + 1) ^ (d.toks.length - j) := by rw [h2, Nat.mul_comm]
    · have hnil : get_conjuncts d j = [] := by
        rcases hq : get_conjuncts d j with _ | ⟨k, tl⟩
        · rfl
        · exfalso
          have := hmem k (by rw [hq]; exact List.mem_cons_self _ _)
          omega
      rw [hnil]
      simp only [conjMeasure, List.map_nil, List.sum_nil]
      exact Nat.pos_pow_of_pos _ (Nat.succ_pos _)
  simp only [conjMeasure, List.map_append, List.sum_append, List.map_cons, List.sum_cons]
  simp only [conjMeasure] at hkey
  omega

/-- `get_subjects_of_verb` from `spacy_utils.py`: the left dependents of the
verb with dependency `nsubj`/`nsubjpass` and part of speech neither `PRON`
nor `ADJ`; then every sentence token with the verb among its children and
part of speech not `VERB`; then the conjuncts appended by the self-extending
`subjs.extend` (see `conjExpand`). -/
def get_subjects_of_verb (d : Doc) (v : Nat) (s0 s1 : Nat) : List Nat :=
  let subjs := (lefts d v).filter (fun t =>
    ((att d t).dep == "nsubj" || (att d t).dep == "nsubjpass")
      && !((att d t).pos == Pos.PRON) && !((att d t).pos == Pos.ADJ))
  let subjs2 := subjs ++ (spanIdxs s0 s1).filter (fun t =>
    (children d t).contains v && !((att d t).pos == Pos.VERB))
  subjs2 ++ conjExpand d subjs2

/-- `get_objects_of_verb` from `spacy_utils.py`: right dependents with
dependency `pobj`, `dobj` or `attr`, then the conjuncts appended by the same
self-extending `objs.extend` pattern. -/
def get_objects_of_verb (d : Doc) (v : Nat) : List Nat :=
  let objs := (rights d v).filter (fun t =>
    (att d t).dep == "pobj" || (att d t).dep == "dobj" || (att d t).dep == "attr")
  objs ++ conjExpand d objs

/-- `get_span_for_compound_noun` from `spacy_utils.py`: walk the right
dependents left-to-right and the left dependents right-to-left, counting with
`takewhile` while the dependency label is `"compound"`. -/
def get_span_for_compound_noun (d : Doc) (i : Nat) : Int × Int :=
  let maxI : Int := (i : Int)
    + ((rights d i).takeWhile (fun x => (att d x).dep == "compound")).length
  let minI : Int := (i : Int)
    - (((lefts d i).reverse).takeWhile (fun x => (att d x).dep == "compound")).length
  (minI, maxI)

/-- Modelled from the spec: `textacy.constants.AUX_DEPS` is imported by
`spacy_utils.py` but its source is not part of this repository; the spec
describes the walk as collecting auxiliary verbs and negations, i.e. the
dependency labels `aux`, `auxpass` and `neg`. -/
def AUX_DEPS : List String := ["aux", "auxpass", "neg"]

/-- Python slice-index normalization for a sequence of length `len`, as spaCy
applies it when slicing a `Span`: negative indices count from the end, and
indices are clamped to `[0, len]`. -/
def pySliceIdx (x : Int) (len : Nat) : Nat :=
  if x < 0 then (max 0 (x + len)).toNat else min x.toNat len

/-- spaCy `Span.rights` for the span `[s0, s1)`: tokens to the right of the
span whose head lies inside the span, in document order. -/
def spanRights (d : Doc) (s0 s1 : Nat) : List Nat :=
  (List.range d.toks.length).filter (fun k =>
    decide (s1 ≤ k) && decide (s0 ≤ (att d k).head) && decide ((att d k).head < s1))

/-- One entry of the `get_span_for_verb_auxiliaries` result: the dict
`{'text': ..., 'token': ...}` whose token is a span or a token. -/
structure VerbEntry where
  text : String
  token : SpacyObj
deriving DecidableEq, Repr

/-- `get_span_for_verb_auxiliaries` from `spacy_utils.py`: expand the verb by
the contiguous dependents whose dependency is in `AUX_DEPS` (left dependents
walked right-to-left, right dependents left-to-right, each via `takewhile`),
slice the sentence to that window, emit the resulting span, then one further
entry per right dependent of the span with dependency `prep`, `agent` or
`xcomp`. -/
def get_span_for_verb_auxiliaries (d : Doc) (v : Nat) (start_i : Nat) (s0 s1 : Nat) :
    List VerbEntry :=
  let minI : Int := (v : Int)
    - (((lefts d v).reverse).takeWhile (fun x => AUX_DEPS.contains (att d x).dep)).length
  let maxI : Int := (v : Int)
    + ((rights d v).takeWhile (fun x => AUX_DEPS.contains (att d x).dep)).length
  let a := s0 + pySliceIdx (minI - start_i) (s1 - s0)
  let b := s0 + pySliceIdx (maxI - start_i + 1) (s1 - s0)
  let vtext := spanText d a b
  { text := vtext, token := SpacyObj.span a b } ::
    ((spanRights d a b).filter (fun t =>
        (att d t).dep == "prep" || (att d t).dep == "agent" || (att d t).dep == "xcomp")).map
      (fun t => { text := vtext ++ " " ++ (att d t).text, token := SpacyObj.tok t })

/-- Claim-side definition (from the spec's words, for comparison with
`normalized_str`): a token's normalized text is its surface text if it is a
proper noun or an acronym, and its lemma otherwise. -/
def tokNormSpec (d : Doc) (j : Nat) : String :=
  if (att d j).pos = Pos.PROPN ∨ is_acronym (att d j).text
  then (att d j).text else (att d j).lemma_

/-- Claim-side definition (from the claim's words, for comparison with
`get_subjects_of_verb`): identical except that the sentence scan keeps the
tokens whose parent is the verb, i.e. the verb's children, where the code
keeps the tokens having the verb among their children. -/
def subjectsClaimed (d : Doc) (v : Nat) (s0 s1 : Nat) : List Nat :=
  let subjs := (lefts d v).filter (fun t =>
    ((att d t).dep == "nsubj" || (att d t).dep == "nsubjpass")
      && !((att d t).pos == Pos.PRON) && !((att d t).pos == Pos.ADJ))
  let subjs2 := subjs ++ (spanIdxs s0 s1).filter (fun t =>
    (children d v).contains t && !((att d t).pos == Pos.VERB))
  subjs2 ++ conjExpand d subjs2

/-- The longest-run property used by the claims about the `takewhile` walks:
`n` counts a maximal leading run of elements of `l` satisfying `p` — every
element before position `n` satisfies `p` and the element at position `n`
(if any) does not. -/
def maxRun (p : Nat → Bool) (l : List Nat) (n : Nat) : Prop :=
  n ≤ l.length ∧ (∀ x ∈ l.take n, p x = true)
    ∧ (l.drop n).head?.all (fun x => !p x) = true

/-! ## Helper lemmas -/

theorem conjExpand_nil (d : Doc) : conjExpand d [] = [] := by
  rw [conjExpand]

theorem conjExpand_cons (d : Doc) (j : Nat) (Q : List Nat) :
    conjExpand d (j :: Q) = get_conjuncts d j ++ conjExpand d (Q ++ get_conjuncts d j) := by
  rw [conjExpand]

theorem conjExpand_eq (d : Doc) (Q : List Nat) :
    conjExpand d Q = ((Q ++ conjExpand d Q).map (get_conjuncts d)).flatten := by
  induction Q using conjExpand.induct d with
  | case1 => simp [conjExpand_nil]
  | case2 j Q2 ih =>
      rw [conjExpand_cons]
      conv_rhs => rw [List.cons_append, List.map_cons, List.flatten_cons]
      congr 1
      rw [← List.append_assoc]
      exact ih

theorem maxRun_takeWhile (p : Nat → Bool) (l : List Nat) :
    maxRun p l (l.takeWhile p).length := by
  induction l with
  | nil => exact ⟨by simp, by simp, by simp⟩
  | cons a t ih =>
      rcases ih with ⟨ih1, ih2, ih3⟩
      by_cases hp : p a = true
      · refine ⟨?_, ?_, ?_⟩
        · simpa [List.takeWhile_cons_of_pos hp] using Nat.succ_le_succ ih1
        · intro x hx
          rw [List.takeWhile_cons_of_pos hp, List.length_cons, List.take_succ_cons] at hx
          rcases List.mem_cons.mp hx with rfl | hx2
          · exact hp
          · exact ih2 x hx2
        · rw [List.takeWhile_cons_of_pos hp, List.length_cons, List.drop_succ_cons]
          exact ih3
      · refine ⟨?_, ?_, ?_⟩
        · simp [List.takeWhile_cons_of_neg hp]
        · intro x hx
          simp [List.takeWhile_cons_of_neg hp] at hx
        · rw [List.takeWhile_cons_of_neg hp]
          simp [hp]

theorem maxRun_unique {p : Nat → Bool} {l : List Nat} {m n : Nat}
    (hm : maxRun p l m) (hn : maxRun p l n) : m = n := by
  rcases hm with ⟨hm1, hm2, hm3⟩
  rcases hn with ⟨hn1, hn2, hn3⟩
  by_contra hne
  wlog h : m < n generalizing m n
  · exact this hn1 hn2 hn3 hm1 hm2 hm3 (Ne.symm hne) (by omega)
  have hml : m < l.length := lt_of_lt_of_le h hn1
  have hdrop : l.drop m = l[m] :: l.drop (m + 1) := List.drop_eq_getElem_cons hml
  have hfalse : p l[m] = false := by
    rw [hdrop, List.head?_cons] at hm3
    have h4 : (!p l[m]) = true := hm3
    simpa using h4
  have htrue : p l[m] = true := by
    refine hn2 _ ?_
    have hsplit : l.take n = l.take m ++ (l.drop m).take (n - m) := by
      conv_lhs => rw [show n = m + (n - m) by omega]
      exact List.take_add l m (n - m)
    rw [hsplit, hdrop, show n - m = (n - m - 1) + 1 by omega, List.take_succ_cons]
    exact List.mem_append_right _ (List.mem_cons_self _ _)
  rw [htrue] at hfalse
  exact Bool.noConfusion hfalse

theorem mapM_ok_of_forall {α β γ : Type} (l : List α) (f : α → Except γ β) (g : α → β)
    (h : ∀ x ∈ l, f x = Except.ok (g x)) : l.mapM f = Except.ok (l.map g) := by
  induction l with
  | nil => rfl
  | cons a t ih =>
      rw [List.mapM_cons, h a (List.mem_cons_self a t),
        ih (fun x hx => h x (List.mem_cons_of_mem a hx))]
      rfl

theorem mapM_cons_error {α β γ : Type} (t : List α) (f : α → Except γ β) (a : α) (e : γ)
    (h : f a = Except.error e) : (a :: t).mapM f = Except.error e := by
  rw [List.mapM_cons, h]
  rfl

/-! ## Claim theorems -/

/-- C3: for every token of a document that has not completed tagging, the
plural-noun check and the case-preservation check fail with the
missing-annotation error (the spec's ValidationError, Python's `ValueError`),
and for every token of a document that has not completed parsing, the
negated-verb check fails likewise. -/
theorem c3_missing_annotation_errors (d : Doc) (i : Nat) :
    (d.is_tagged = false →
      is_plural_noun d i = Except.error (PyErr.valueError "token is not POS-tagged")
        ∧ preserve_case d i = Except.error (PyErr.valueError "token is not POS-tagged"))
    ∧ (d.is_parsed = false →
      is_negated_verb d i = Except.error (PyErr.valueError "token is not parsed")) := by
  refine ⟨fun h => ⟨?_, ?_⟩, fun h => ?_⟩
  · simp [is_plural_noun, h]
  · simp [preserve_case, h]
  · simp [is_negated_verb, h]

/-- Document for the C3 witness: one token, neither tagged nor parsed. -/
def dC3 : Doc := { toks := [{ text := "x" }], is_tagged := false, is_parsed := false }

theorem c3_witness :
    is_plural_noun dC3 0 = Except.error (PyErr.valueError "token is not POS-tagged")
      ∧ preserve_case dC3 0 = Except.error (PyErr.valueError "token is not POS-tagged")
      ∧ is_negated_verb dC3 0 = Except.error (PyErr.valueError "token is not parsed") :=
  ⟨((c3_missing_annotation_errors dC3 0).1 rfl).1,
    ((c3_missing_annotation_errors dC3 0).1 rfl).2,
    (c3_missing_annotation_errors dC3 0).2 rfl⟩

/-- C4: for every token of a tagged document, the plural-noun check returns
true if and only if the token's part of speech is `NOUN` (common noun) and
its lemma differs from its lowercase form. -/
theorem c4_is_plural_noun_spec (d : Doc) (i : Nat) (h : d.is_tagged = true) :
    is_plural_noun d i
      = Except.ok (decide ((att d i).pos = Pos.NOUN ∧ (att d i).lemma_ ≠ (att d i).lower)) := by
  simp only [is_plural_noun, h]
  by_cases hp : (att d i).pos = Pos.NOUN ∧ (att d i).lemma_ ≠ (att d i).lower
  · rw [if_neg (by simp), if_pos hp, decide_eq_true hp]
  · rw [if_neg (by simp), if_neg hp, decide_eq_false hp]

/-- Document for the C4 witness: the spec's example, plural noun "cats"
(lemma "cat" differs from lowercase "cats") and singular noun "cat". -/
def dC4 : Doc := { toks := [
  { pos := Pos.NOUN, lemma_ := "cat", lower := "cats", text := "cats" },
  { pos := Pos.NOUN, lemma_ := "cat", lower := "cat", text := "cat" }] }

theorem c4_witness :
    is_plural_noun dC4 0 = Except.ok true ∧ is_plural_noun dC4 1 = Except.ok false :=
  ⟨(c4_is_plural_noun_spec dC4 0 rfl).trans (congrArg Except.ok (by decide)),
    (c4_is_plural_noun_spec dC4 1 rfl).trans (congrArg Except.ok (by decide))⟩

/-- C5: for every token of a parsed document, the negated-verb check returns
true if and only if the token's part of speech is `VERB` and some dependency
child of the token carries the label `"neg"`. -/
theorem c5_is_negated_verb_spec (d : Doc) (i : Nat) (h : d.is_parsed = true) :
    is_negated_verb d i
      = Except.ok (decide ((att d i).pos = Pos.VERB
          ∧ ∃ c ∈ children d i, (att d c).dep = "neg")) := by
  simp only [is_negated_verb, h]
  have hiff : ((att d i).pos = Pos.VERB
        ∧ ((children d i).any (fun c => (att d c).dep == "neg")) = true)
      ↔ ((att d i).pos = Pos.VERB ∧ ∃ c ∈ children d i, (att d c).dep = "neg") := by
    simp [List.any_eq_true]
  by_cases hp : (att d i).pos = Pos.VERB ∧ ∃ c ∈ children d i, (att d c).dep = "neg"
  · rw [if_neg (by simp), if_pos (hiff.mpr hp), decide_eq_true hp]
  · rw [if_neg (by simp), if_neg (fun hc => hp (hiff.mp hc)), decide_eq_false hp]

/-- Document for the C5 witness: the spec's example, verb "is" with child
"not" labeled `neg`, and verb "runs" with no `neg` child. -/
def dC5 : Doc := { toks := [
  { pos := Pos.VERB, text := "is", head := 0 },
  { text := "not", dep := "neg", head := 0 },
  { pos := Pos.VERB, text := "runs", head := 2 }] }

theorem c5_witness :
    is_negated_verb dC5 0 = Except.ok true ∧ is_negated_verb dC5 2 = Except.ok false :=
  ⟨(c5_is_negated_verb_spec dC5 0 rfl).trans (congrArg Except.ok (by decide)),
    (c5_is_negated_verb_spec dC5 2 rfl).trans (congrArg Except.ok (by decide))⟩

theorem tokNormSpec_eval (d : Doc) (j : Nat) :
    (if (decide ((att d j).pos = Pos.PROPN) || is_acronym (att d j).text) = true
      then (att d j).text else (att d j).lemma_) = tokNormSpec d j := by
  have hb : ((decide ((att d j).pos = Pos.PROPN) || is_acronym (att d j).text) = true)
      ↔ ((att d j).pos = Pos.PROPN ∨ is_acronym (att d j).text = true) := by
    simp
  unfold tokNormSpec
  by_cases hc : (att d j).pos = Pos.PROPN ∨ is_acronym (att d j).text = true
  · rw [if_pos (hb.mpr hc), if_pos hc]
  · rw [if_neg (fun hx => hc (hb.mp hx)), if_neg hc]

/-- C2: for every span of a tagged document, the normalized text equals the
per-token normalized texts joined with single spaces, where a token's
normalized text is its surface text when it is a proper noun or an acronym
and its lemma otherwise (`tokNormSpec`, written from the spec's words). -/
theorem c2_normalized_str_span (d : Doc) (s0 s1 : Nat) (h : d.is_tagged = true) :
    normalized_str d (SpacyObj.span s0 s1)
        = Except.ok (String.intercalate " " ((spanIdxs s0 s1).map (tokNormSpec d)))
      ∧ ∀ j : Nat, normalized_str d (SpacyObj.tok j) = Except.ok (tokNormSpec d j) := by
  have hpc : ∀ j : Nat, preserve_case d j
      = Except.ok (decide ((att d j).pos = Pos.PROPN) || is_acronym (att d j).text) := by
    intro j
    simp [preserve_case, h]
  constructor
  · simp only [normalized_str]
    rw [mapM_ok_of_forall (spanIdxs s0 s1) _ (tokNormSpec d) ?_]
    · rfl
    · intro x _
      rw [hpc x]
      exact congrArg Except.ok (tokNormSpec_eval d x)
  · intro j
    simp only [normalized_str]
    rw [hpc j]
    exact congrArg Except.ok (tokNormSpec_eval d j)

theorem mapM_cases {α β : Type} (e : PyErr) (f : α → Except PyErr β)
    (hf : ∀ x, (∃ b, f x = Except.ok b) ∨ f x = Except.error e) (l : List α) :
    (∃ s, l.mapM f = Except.ok s) ∨ l.mapM f = Except.error e := by
  induction l with
  | nil => exact Or.inl ⟨[], rfl⟩
  | cons a t ih =>
      rw [List.mapM_cons]
      rcases hf a with ⟨b, hb⟩ | hb
      · rcases ih with ⟨s, hs⟩ | hs
        · exact Or.inl ⟨b :: s, by rw [hb, hs]; rfl⟩
        · exact Or.inr (by rw [hb, hs]; rfl)
      · exact Or.inr (by rw [hb]; rfl)

/-- C9: on a document that has not completed tagging, `normalized_str`
propagates the missing-annotation error of `preserve_case` for a token input
and for a span input containing at least one token, and a `TypeError` is
produced exactly for the inputs that are neither a token nor a span. -/
theorem c9_normalized_str_errors (d : Doc) (inp : SpacyObj) :
    (d.is_tagged = false →
      (∀ i, inp = SpacyObj.tok i →
          normalized_str d inp = Except.error (PyErr.valueError "token is not POS-tagged"))
        ∧ (∀ s0 s1, inp = SpacyObj.span s0 s1 → s0 < s1 →
          normalized_str d inp = Except.error (PyErr.valueError "token is not POS-tagged")))
    ∧ ((∃ m, normalized_str d inp = Except.error (PyErr.typeError m))
        ↔ ∃ t, inp = SpacyObj.other t) := by
  constructor
  · intro h
    constructor
    · rintro i rfl
      have hpc : preserve_case d i
          = Except.error (PyErr.valueError "token is not POS-tagged") := by
        simp [preserve_case, h]
      simp only [normalized_str]
      rw [hpc]
      rfl
    · rintro s0 s1 rfl hlt
      have hcons : spanIdxs s0 s1 = s0 :: List.range' (s0 + 1) (s1 - s0 - 1) := by
        unfold spanIdxs
        conv_lhs => rw [show s1 - s0 = (s1 - s0 - 1) + 1 by omega]
        rw [List.range'_succ]
      have hpc : preserve_case d s0
          = Except.error (PyErr.valueError "token is not POS-tagged") := by
        simp [preserve_case, h]
      have herr := mapM_cons_error (List.range' (s0 + 1) (s1 - s0 - 1))
        (fun j => (do
          let pc ← preserve_case d j
          pure (if pc then (att d j).text else (att d j).lemma_) : Except PyErr String))
        s0 (PyErr.valueError "token is not POS-tagged")
        (by beta_reduce; rw [hpc]; rfl)
      simp only [normalized_str]
      rw [hcons, herr]
      rfl
  · cases inp with
    | tok i =>
        constructor
        · rintro ⟨m, hm⟩
          exfalso
          cases htag : d.is_tagged with
          | false =>
              have hpc : preserve_case d i
                  = Except.error (PyErr.valueError "token is not POS-tagged") := by
                simp [preserve_case, htag]
              have hres : normalized_str d (SpacyObj.tok i)
                  = Except.error (PyErr.valueError "token is not POS-tagged") := by
                simp only [normalized_str]
                rw [hpc]
                rfl
              rw [hres] at hm
              injection hm with h2
              exact PyErr.noConfusion h2
          | true =>
              have hpc : preserve_case d i
                  = Except.ok (decide ((att d i).pos = Pos.PROPN)
                      || is_acronym (att d i).text) := by
                simp [preserve_case, htag]
              have hres : normalized_str d (SpacyObj.tok i)
                  = Except.ok (if (decide ((att d i).pos = Pos.PROPN)
                        || is_acronym (att d i).text) = true
                      then (att d i).text else (att d i).lemma_) := by
                simp only [normalized_str]
                rw [hpc]
                rfl
              rw [hres] at hm
              exact Except.noConfusion hm
        · rintro ⟨t, ht⟩
          cases ht
    | span s0 s1 =>
        constructor
        · rintro ⟨m, hm⟩
          exfalso
          have hf : ∀ j : Nat, (∃ b, (do
                let pc ← preserve_case d j
                pure (if pc then (att d j).text else (att d j).lemma_) : Except PyErr String)
              = Except.ok b)
              ∨ (do
                let pc ← preserve_case d j
                pure (if pc then (att d j).text else (att d j).lemma_) : Except PyErr String)
              = Except.error (PyErr.valueError "token is not POS-tagged") := by
            intro j
            cases htag : d.is_tagged with
            | false =>
                refine Or.inr ?_
                have hpc : preserve_case d j
                    = Except.error (PyErr.valueError "token is not POS-tagged") := by
                  simp [preserve_case, htag]
                rw [hpc]
                rfl
            | true =>
                refine Or.inl ⟨if (decide ((att d j).pos = Pos.PROPN)
                    || is_acronym (att d j).text) = true
                  then (att d j).text else (att d j).lemma_, ?_⟩
                have hpc : preserve_case d j
                    = Except.ok (decide ((att d j).pos = Pos.PROPN)
                        || is_acronym (att d j).text) := by
                  simp [preserve_case, htag]
                rw [hpc]
                rfl
          rcases mapM_cases (PyErr.valueError "token is not POS-tagged")
              (fun j => (do
                let pc ← preserve_case d j
                pure (if pc then (att d j).text else (att d j).lemma_) : Except PyErr String))
              hf (spanIdxs s0 s1) with ⟨s, hs⟩ | hs
          · have hres : normalized_str d (SpacyObj.span s0 s1)
                = Except.ok (String.intercalate " " s) := by
              simp only [normalized_str]
              rw [hs]
              rfl
            rw [hres] at hm
            exact Except.noConfusion hm
          · have hres : normalized_str d (SpacyObj.span s0 s1)
                = Except.error (PyErr.valueError "token is not POS-tagged") := by
              simp only [normalized_str]
              rw [hs]
              rfl
            rw [hres] at hm
            injection hm with h2
            exact PyErr.noConfusion h2
        · rintro ⟨t, ht⟩
          cases ht
    | other t =>
        constructor
        · intro _
          exact ⟨t, rfl⟩
        · intro _
          exact ⟨"Input must be a spacy Token or Span, not " ++ t ++ ".", rfl⟩

/-- Document for the C2 witness: proper noun "Burton" (lemma "burton") and
ordinary token "ran" (lemma "run"). -/
def dC2 : Doc := { toks := [
  { pos := Pos.PROPN, lemma_ := "burton", text := "Burton" },
  { lemma_ := "run", text := "ran" }] }

theorem c2_witness :
    normalized_str dC2 (SpacyObj.span 0 2) = Except.ok "Burton run"
      ∧ normalized_str dC2 (SpacyObj.tok 1) = Except.ok "run" :=
  ⟨(c2_normalized_str_span dC2 0 2 rfl).1.trans (congrArg Except.ok (by decide)),
    ((c2_normalized_str_span dC2 0 2 rfl).2 1).trans (congrArg Except.ok (by decide))⟩

/-- Document for the C9 witness: a single token, not POS-tagged. -/
def dC9 : Doc := { toks := [{ text := "X" }], is_tagged := false }

theorem c9_witness :
    normalized_str dC9 (SpacyObj.tok 0)
        = Except.error (PyErr.valueError "token is not POS-tagged")
      ∧ normalized_str dC9 (SpacyObj.span 0 1)
        = Except.error (PyErr.valueError "token is not POS-tagged")
      ∧ (∃ m, normalized_str dC9 (SpacyObj.other "int")
        = Except.error (PyErr.typeError m)) :=
  ⟨((c9_normalized_str_errors dC9 (SpacyObj.tok 0)).1 rfl).1 0 rfl,
    ((c9_normalized_str_errors dC9 (SpacyObj.span 0 1)).1 rfl).2 0 1 rfl (by decide),
    (c9_normalized_str_errors dC9 (SpacyObj.other "int")).2.mpr ⟨"int", rfl⟩⟩

/-- C7: the span-merge batch attempts each span in turn with the arguments
`(root tag, span text, root entity type)` (see `mergeCall`); a successful
merge updates the document in place and processing continues on the mutated
document, while a failed merge leaves the document unchanged, logs the error
message, and processing continues with the remaining spans — one bad span
does not abort the batch. -/
theorem c7_merge_spans_continues (d : Doc) (sp : SpanI) (rest : List SpanI) :
    (∀ e, mergeCall d sp = Except.error e →
      merge_spans d (sp :: rest) = ((merge_spans d rest).1, e :: (merge_spans d rest).2))
    ∧ (∀ d2, mergeCall d sp = Except.ok d2 →
      merge_spans d (sp :: rest) = merge_spans d2 rest) := by
  constructor
  · intro e he
    simp [merge_spans, he]
  · intro d2 h2
    simp [merge_spans, h2]

/-- Document for the C7 witness: two tokens "San" and "Francisco". -/
def dC7 : Doc := { toks := [
  { tag := "NNP", text := "San", entType := "GPE", head := 1 },
  { tag := "NNP", text := "Francisco", entType := "GPE", head := 1 }] }

theorem c7_witness :
    mergeCall dC7 ⟨0, 5⟩ = Except.error "index out of range"
      ∧ merge_spans dC7 [⟨0, 5⟩, ⟨0, 2⟩]
        = ((merge_spans dC7 [⟨0, 2⟩]).1, "index out of range" :: (merge_spans dC7 [⟨0, 2⟩]).2) := by
  refine ⟨rfl, ?_⟩
  exact (c7_merge_spans_continues dC7 ⟨0, 5⟩ [⟨0, 2⟩]).1 "index out of range" rfl

/-- C10: `get_main_verbs_of_sent` emits one entry per subject-relation token
whose head is a verb, so the number of entries carrying verb `v` equals the
number of sentence tokens with dependency `nsubj` or `nsubjpass` whose head
is `v`, when `v` is a verb — duplicate verb entries are not removed. -/
theorem c10_main_verbs_multiplicity (d : Doc) (s0 s1 v : Nat) :
    ((get_main_verbs_of_sent d s0 s1).countP (fun e => e.2 == v))
      = ((spanIdxs s0 s1).countP (fun t =>
          ((att d t).dep == "nsubj" || (att d t).dep == "nsubjpass")
            && (att d t).head == v && decide ((att d v).pos = Pos.VERB))) := by
  unfold get_main_verbs_of_sent
  rw [List.countP_map, List.countP_filter]
  refine List.countP_congr ?_
  intro t _
  simp only [Function.comp]
  by_cases hh : (att d t).head = v
  · rw [hh]
    simp [Bool.and_comm, Bool.and_assoc, Bool.and_left_comm]
  · have hb : ((att d t).head == v) = false := by
      simp [hh]
    simp [hb]

/-- C6: for every noun token, the compound-noun span is the pair
`(i - n, i + m)` where `n` is the length of the maximal trailing run of
compound-labeled left dependents (walked right-to-left) and `m` the length of
the maximal leading run of compound-labeled right dependents; each walk
short-circuits at the first non-compound dependent (the `maxRun` property).
In particular a noun with two preceding compound dependents and none
following yields `(i - 2, i)` (see the witness). -/
theorem c6_compound_noun_span_spec (d : Doc) (i n m : Nat)
    (hl : maxRun (fun x => (att d x).dep == "compound") ((lefts d i).reverse) n)
    (hr : maxRun (fun x => (att d x).dep == "compound") (rights d i) m) :
    get_span_for_compound_noun d i = ((i : Int) - n, (i : Int) + m) := by
  rw [maxRun_unique hl (maxRun_takeWhile (fun x => (att d x).dep == "compound")
      ((lefts d i).reverse)),
    maxRun_unique hr (maxRun_takeWhile (fun x => (att d x).dep == "compound")
      (rights d i))]
  rfl

/-- Document for the C6 witness: noun "cone" at index 2 preceded by the two
compound dependents "ice" and "cream", with no right dependents. -/
def dC6 : Doc := { toks := [
  { pos := Pos.NOUN, text := "ice", dep := "compound", head := 2 },
  { pos := Pos.NOUN, text := "cream", dep := "compound", head := 2 },
  { pos := Pos.NOUN, text := "cone", head := 2 }] }

theorem c6_witness :
    maxRun (fun x => (att dC6 x).dep == "compound") ((lefts dC6 2).reverse) 2
      ∧ maxRun (fun x => (att dC6 x).dep == "compound") (rights dC6 2) 0
      ∧ get_span_for_compound_noun dC6 2 = ((2 : Int) - 2, (2 : Int) + 0) := by
  refine ⟨?_, ?_, ?_⟩
  · refine ⟨by decide, by decide, by decide⟩
  · refine ⟨by decide, by decide, by decide⟩
  · exact c6_compound_noun_span_spec dC6 2 2 0
      ⟨by decide, by decide, by decide⟩ ⟨by decide, by decide, by decide⟩

theorem beq_eq_decide_eq (s c : String) : (s == c) = decide (s = c) := by
  by_cases h : s = c <;> simp [h]

/-- C8: for every verb with its sentence `[s0, s1)` and start offset, the
result begins with one entry for the span covering the verb together with
the maximal contiguous runs (`maxRun`, short-circuiting walks) of
`AUX_DEPS`-labeled dependents on both sides, followed by one entry per right
dependent of that expanded span whose dependency is `prep`, `agent` or
`xcomp`. -/
theorem c8_verb_aux_span_spec (d : Doc) (v start_i s0 s1 n m : Nat)
    (hl : maxRun (fun x => AUX_DEPS.contains (att d x).dep) ((lefts d v).reverse) n)
    (hr : maxRun (fun x => AUX_DEPS.contains (att d x).dep) (rights d v) m) :
    get_span_for_verb_auxiliaries d v start_i s0 s1 =
      (let a := s0 + pySliceIdx ((v : Int) - n - start_i) (s1 - s0)
       let b := s0 + pySliceIdx ((v : Int) + m - start_i + 1) (s1 - s0)
       { text := spanText d a b, token := SpacyObj.span a b } ::
         ((spanRights d a b).filter (fun t =>
             decide ((att d t).dep = "prep" ∨ (att d t).dep = "agent"
               ∨ (att d t).dep = "xcomp"))).map
           (fun t => { text := spanText d a b ++ " " ++ (att d t).text,
                       token := SpacyObj.tok t })) := by
  have hfil : ∀ (a b : Nat), (spanRights d a b).filter (fun t =>
        (att d t).dep == "prep" || (att d t).dep == "agent" || (att d t).dep == "xcomp")
      = (spanRights d a b).filter (fun t =>
        decide ((att d t).dep = "prep" ∨ (att d t).dep = "agent"
          ∨ (att d t).dep = "xcomp")) := by
    intro a b
    refine List.filter_congr ?_
    intro x _
    rw [beq_eq_decide_eq, beq_eq_decide_eq, beq_eq_decide_eq]
    simp [Bool.or_assoc]
  rw [maxRun_unique hl (maxRun_takeWhile (fun x => AUX_DEPS.contains (att d x).dep)
      ((lefts d v).reverse)),
    maxRun_unique hr (maxRun_takeWhile (fun x => AUX_DEPS.contains (att d x).dep)
      (rights d v))]
  simp only [get_span_for_verb_auxiliaries]
  rw [hfil]

/-- Document for the C8 witness: auxiliary "did" before verb "go" at index 1,
with right dependent "to" labeled `prep`; sentence `[0, 3)`, start offset 0. -/
def dC8 : Doc := { toks := [
  { pos := Pos.VERB, text := "did", dep := "aux", head := 1 },
  { pos := Pos.VERB, text := "go", head := 1 },
  { text := "to", dep := "prep", head := 1 }] }

theorem c8_witness :
    maxRun (fun x => AUX_DEPS.contains (att dC8 x).dep) ((lefts dC8 1).reverse) 1
      ∧ maxRun (fun x => AUX_DEPS.contains (att dC8 x).dep) (rights dC8 1) 0
      ∧ get_span_for_verb_auxiliaries dC8 1 0 0 3
        = [{ text := "did go", token := SpacyObj.span 0 2 },
           { text := "did go to", token := SpacyObj.tok 2 }] := by
  refine ⟨⟨by decide, by decide, by decide⟩, ⟨by decide, by decide, by decide⟩, ?_⟩
  exact (c8_verb_aux_span_spec dC8 1 0 0 3 1 0
      ⟨by decide, by decide, by decide⟩ ⟨by decide, by decide, by decide⟩).trans
    (by decide)

/-- Counterexample document for C1: verb "eats" at index 0 whose direct
object "fish" (a noun, not a verb) has the verb as parent.  The claim's
sentence scan ("every sentence token whose parent is the verb") selects
"fish"; the code's scan (`verb in tok.children`) selects the tokens that are
the verb's parent, and selects nothing here. -/
def dC1 : Doc := { toks := [
  { pos := Pos.VERB, text := "eats", head := 0 },
  { pos := Pos.NOUN, text := "fish", dep := "dobj", head := 0 }] }

/-- C1 is false as stated: on `dC1` the code returns no subjects while the
claim's description (`subjectsClaimed`, written from the claim's words)
returns the object token 1, because the claim reverses the direction of the
parent test in the sentence scan. -/
theorem c1_counterexample :
    get_subjects_of_verb dC1 0 0 2 ≠ subjectsClaimed dC1 0 0 2 := by
  have hc : get_conjuncts dC1 1 = [] := by decide
  have h1 : get_subjects_of_verb dC1 0 0 2 = [] := by
    show ([] : List Nat) ++ conjExpand dC1 [] = []
    rw [conjExpand_nil]
    rfl
  have h2 : subjectsClaimed dC1 0 0 2 = [1] := by
    show ([1] : List Nat) ++ conjExpand dC1 [1] = [1]
    rw [conjExpand_cons, hc]
    simp [conjExpand_nil]
  rw [h1, h2]
  decide

/-- C1 (amended): the subjects of a verb are exactly the verb's left
dependents with subject dependency (`nsubj`/`nsubjpass`) and part of speech
neither pronoun nor adjective, plus every sentence token that has the verb
among its dependency children (the verb's parent) and is not itself a verb,
plus, for each subject in the result (conjunct-found subjects included), its
conjunct expansions, appended in processing order — the self-extending
`subjs.extend` makes the result a fixed point of conjunct expansion. -/
theorem c1_subjects_amended (d : Doc) (v s0 s1 : Nat) :
    get_subjects_of_verb d v s0 s1 =
      ((lefts d v).filter (fun t =>
          decide (((att d t).dep = "nsubj" ∨ (att d t).dep = "nsubjpass")
            ∧ (att d t).pos ≠ Pos.PRON ∧ (att d t).pos ≠ Pos.ADJ)))
        ++ ((spanIdxs s0 s1).filter (fun t =>
          decide (v ∈ children d t ∧ (att d t).pos ≠ Pos.VERB)))
        ++ ((get_subjects_of_verb d v s0 s1).map (get_conjuncts d)).flatten := by
  have hA : (lefts d v).filter (fun t =>
        ((att d t).dep == "nsubj" || (att d t).dep == "nsubjpass")
          && !((att d t).pos == Pos.PRON) && !((att d t).pos == Pos.ADJ))
      = (lefts d v).filter (fun t =>
        decide (((att d t).dep = "nsubj" ∨ (att d t).dep = "nsubjpass")
          ∧ (att d t).pos ≠ Pos.PRON ∧ (att d t).pos ≠ Pos.ADJ)) := by
    refine List.filter_congr ?_
    intro x _
    by_cases h1 : (att d x).dep = "nsubj" <;> by_cases h2 : (att d x).dep = "nsubjpass"
      <;> by_cases h3 : (att d x).pos = Pos.PRON <;> by_cases h4 : (att d x).pos = Pos.ADJ
      <;> simp [h1, h2, h3, h4]
  have hB : (spanIdxs s0 s1).filter (fun t =>
        (children d t).contains v && !((att d t).pos == Pos.VERB))
      = (spanIdxs s0 s1).filter (fun t =>
        decide (v ∈ children d t ∧ (att d t).pos ≠ Pos.VERB)) := by
    refine List.filter_congr ?_
    intro x _
    by_cases h1 : v ∈ children d x <;> by_cases h2 : (att d x).pos = Pos.VERB
      <;> simp [h1, h2]
  have hGS : get_subjects_of_verb d v s0 s1
      = ((lefts d v).filter (fun t =>
            ((att d t).dep == "nsubj" || (att d t).dep == "nsubjpass")
              && !((att d t).pos == Pos.PRON) && !((att d t).pos == Pos.ADJ))
          ++ (spanIdxs s0 s1).filter (fun t =>
            (children d t).contains v && !((att d t).pos == Pos.VERB)))
        ++ conjExpand d
          ((lefts d v).filter (fun t =>
            ((att d t).dep == "nsubj" || (att d t).dep == "nsubjpass")
              && !((att d t).pos == Pos.PRON) && !((att d t).pos == Pos.ADJ))
          ++ (spanIdxs s0 s1).filter (fun t =>
            (children d t).contains v && !((att d t).pos == Pos.VERB))) := rfl
  rw [hGS, hA, hB]
  conv_rhs => rw [← conjExpand_eq d (((lefts d v).filter (fun t =>
      decide (((att d t).dep = "nsubj" ∨ (att d t).dep = "nsubjpass")
        ∧ (att d t).pos ≠ Pos.PRON ∧ (att d t).pos ≠ Pos.ADJ)))
    ++ ((spanIdxs s0 s1).filter (fun t =>
      decide (v ∈ children d t ∧ (att d t).pos ≠ Pos.VERB))))]
